import Mathlib

/-!
Shallow embedding of the Self-Healing-Database system
(src/realtime_self_healing_mongodb.py) in Lean 4.

Documents are modelled as association lists of BSON-like values, the
database as an association list of named collections, and each detector
check / fixer strategy as a pure Lean function translated from the
corresponding Python method.  The concurrent fixer loop is modelled as a
small-step transition system over the shared state it mutates.
-/

namespace SelfHeal

/-- BSON-like field values: strings, integers, or null. -/
inductive BVal where
  | vstr (s : String)
  | vint (n : Int)
  | vnull
deriving DecidableEq, Repr

/-- A document: `_id` plus an association list of named fields
(Python dicts have unique keys; lookup takes the first occurrence). -/
structure Doc where
  id : Nat
  fields : List (String × BVal)
deriving DecidableEq, Repr

/-- `doc.get(k)`: `none` when the field is absent. -/
def lookupField (d : Doc) (k : String) : Option BVal :=
  (d.fields.find? (fun p => p.1 == k)).map (fun p => p.2)

/-- Python `doc.get(k)` where an absent field and a null field are both
`None` on the Python side. -/
def pyGet (d : Doc) (k : String) : BVal :=
  (lookupField d k).getD BVal.vnull

/-- Python `doc[k]`: raises `KeyError` when the field is absent. -/
def getFieldE (d : Doc) (k : String) : Except Unit BVal :=
  match lookupField d k with
  | some v => Except.ok v
  | none => Except.error ()

/-- `doc[k] = v`: replace the first binding of `k`, or append one. -/
def setField : List (String × BVal) → String → BVal → List (String × BVal)
  | [], k, v => [(k, v)]
  | p :: ps, k, v => if p.1 == k then (k, v) :: ps else p :: setField ps k v

/-- Python truthiness of a value obtained by `doc.get`:
`None`, `''` and `0` are falsy. -/
def truthyB : BVal → Bool
  | BVal.vstr s => !(s == "")
  | BVal.vint n => !(n == 0)
  | BVal.vnull => false

/-- The database: named collections in creation order. -/
def DBase := List (String × List Doc)

instance : DecidableEq DBase := by
  unfold DBase
  infer_instance

/-- `list_collection_names()`. -/
def collNames (db : DBase) : List String := db.map (fun p => p.1)

/-- `db[name]` viewed as its current contents; a collection that does not
exist yet reads as empty (MongoDB auto-creates on first write). -/
def getColl (db : DBase) (n : String) : List Doc :=
  match db.find? (fun p => p.1 == n) with
  | some p => p.2
  | none => []

/-- Write back a collection, creating it if absent. -/
def setColl : DBase → String → List Doc → DBase
  | [], n, c => [(n, c)]
  | p :: ps, n, c => if p.1 == n then (n, c) :: ps else p :: setColl ps n c

/-- `delete_one({'_id': i})`: remove the first document with that id. -/
def deleteOne : List Doc → Nat → List Doc
  | [], _ => []
  | d :: ds, i => if d.id == i then ds else d :: deleteOne ds i

/-- `update_one({'_id': i}, {'$set': {k: v}})`: set one field on the first
document with that id. -/
def updateOneSet : List Doc → Nat → String → BVal → List Doc
  | [], _, _, _ => []
  | d :: ds, i, k, v =>
      if d.id == i then { d with fields := setField d.fields k v } :: ds
      else d :: updateOneSet ds i k v

/-- An anomaly record (the Python `error` dict); fields not set by a given
detector keep their defaults, mirroring dict keys that are simply absent. -/
structure ErrorRec where
  etype : String := ""
  severity : String := ""
  collection : String := ""
  documentId : Nat := 0
  documentIds : List Nat := []
  missingField : String := ""
  offendingField : String := ""
  keyValue : BVal := BVal.vnull
  fixAction : String := ""
deriving DecidableEq, Repr

/-! ## Detector checks (`RealtimeErrorDetector`) -/

/-- Matches the `$or` filter of `_check_missing_fields`:
field absent, null, or the empty string. -/
def missingOn (d : Doc) (k : String) : Bool :=
  match lookupField d k with
  | none => true
  | some BVal.vnull => true
  | some (BVal.vstr s) => s == ""
  | some _ => false

/-- Build the missing-email anomaly for one user document. -/
def mkMissingErr (d : Doc) : ErrorRec :=
  { etype := "missing_field", severity := "high", collection := "users",
    documentId := d.id, missingField := "email",
    fixAction := "add_default_or_delete" }

/-- `_check_missing_fields`: scan `users` for documents whose `email` is
absent, null or empty (first 10 only), one anomaly per such document. -/
def checkMissingFields (db : DBase) : List ErrorRec :=
  if !(collNames db).contains "users" then []
  else
    (((getColl db "users").filter (fun d => missingOn d "email")).take 10).map
      mkMissingErr

/-- Grouping key of the duplicate check's `$group` stage: a document with
no `email` field groups with null. -/
def dupKey (d : Doc) : BVal := pyGet d "email"

/-- The distinct grouping keys in first-appearance order (the aggregation
produces one group per distinct key; we fix discovery order as the
deterministic representative of the group order). -/
def groupKeys (docs : List Doc) : List BVal :=
  (docs.map dupKey).dedup

/-- `_check_duplicates`: one anomaly per email value held by more than one
user, carrying all colliding ids in collection (discovery) order. -/
def checkDuplicates (db : DBase) : List ErrorRec :=
  if !(collNames db).contains "users" then []
  else
    let users := getColl db "users"
    (groupKeys users).filterMap (fun k =>
      let ids := (users.filter (fun d => dupKey d == k)).map Doc.id
      if ids.length > 1 then
        some { etype := "duplicate_record", severity := "medium",
               collection := "users", keyValue := k, documentIds := ids,
               fixAction := "remove_duplicates" }
      else none)

/-- The generator expression
`set(doc['email'] for doc in users.find({}, {'email': 1}))`:
`doc['email']` raises `KeyError` as soon as one user lacks the field. -/
def collectEmails : List Doc → Except Unit (List BVal)
  | [] => Except.ok []
  | d :: ds =>
      match lookupField d "email" with
      | none => Except.error ()
      | some v =>
          match collectEmails ds with
          | Except.error e => Except.error e
          | Except.ok vs => Except.ok (v :: vs)

/-- Build the orphan anomaly for one order. -/
def mkOrphanErr (o : Doc) : ErrorRec :=
  { etype := "orphaned_document", severity := "high", collection := "orders",
    documentId := o.id, keyValue := pyGet o "user_email",
    fixAction := "archive_orphaned" }

/-- `_check_orphaned_documents`: collect every user's `email` (a `KeyError`
aborts the whole check — the surrounding `except` swallows it and the
check yields nothing), then flag each order whose `user_email` is truthy
and not among the collected values. -/
def checkOrphanedDocuments (db : DBase) : List ErrorRec :=
  if !(collNames db).contains "orders" then []
  else if !(collNames db).contains "users" then []
  else
    match collectEmails (getColl db "users") with
    | Except.error _ => []
    | Except.ok emails =>
        ((getColl db "orders").filter (fun o =>
            truthyB (pyGet o "user_email") &&
            !(emails.contains (pyGet o "user_email")))).map mkOrphanErr

/-- The allowed `status` values of `_check_data_consistency`. -/
def validStatuses : List BVal :=
  [BVal.vstr "pending", BVal.vstr "processing", BVal.vstr "completed",
   BVal.vstr "cancelled"]

/-- Matches `{'status': {'$nin': valid}}` — `$nin` also matches documents
where the field is absent. -/
def invalidStatusOn (d : Doc) : Bool :=
  match lookupField d "status" with
  | none => true
  | some v => !(validStatuses.contains v)

/-- `_check_data_consistency`: orders whose `status` is outside the allowed
set (first 10 only). -/
def checkDataConsistency (db : DBase) : List ErrorRec :=
  if !(collNames db).contains "orders" then []
  else
    (((getColl db "orders").filter invalidStatusOn).take 10).map
      (fun d =>
        { etype := "invalid_data", severity := "medium", collection := "orders",
          documentId := d.id, offendingField := "status",
          keyValue := pyGet d "status", fixAction := "set_default_value" })

/-- Matches `{k: {'$gte': n}}` on an integer field. -/
def intGte (d : Doc) (k : String) (n : Int) : Bool :=
  match lookupField d k with
  | some (BVal.vint m) => n ≤ m
  | _ => false

/-- `_check_slow_queries`: profile entries of the last hour (cutoff passed
in) slower than 2000 ms, first 5 only. -/
def checkSlowQueries (cutoff : Int) (db : DBase) : List ErrorRec :=
  (((getColl db "system.profile").filter (fun d =>
      intGte d "millis" 2000 && intGte d "ts" cutoff)).take 5).map
    (fun d =>
      { etype := "slow_query", severity := "low", documentId := d.id,
        fixAction := "create_index" })

/-! ## Shared state (`GlobalState`) -/

/-- A Python return value, as far as the claims need it:
`add_error` returns `None` on every path. -/
inductive PyVal where
  | pynone
  | pybool (b : Bool)
deriving DecidableEq, Repr

/-- The fields of `GlobalState` touched by the detector side. -/
structure GState where
  queue : List ErrorRec := []
  errorsDetected : List ErrorRec := []
  totalDetected : Nat := 0
  checksRun : Nat := 0
  lastCheck : Option String := none
  errorsInQueue : Nat := 0
  dbConnected : Bool := false
  healthStatus : String := "initializing"
deriving DecidableEq, Repr

/-- `queue.Queue(maxsize=cap).put_nowait` succeeds iff the queue is not
full; `maxsize <= 0` means unbounded in Python. -/
def queueHasRoom (cap : Nat) (q : List ErrorRec) : Bool :=
  cap == 0 || q.length < cap

/-- `GlobalState.add_error`: `put_nowait` first — if it raises `queue.Full`
the `except` swallows it and nothing at all is updated; otherwise the
recent-detected list, the detected counter and the queue-depth gauge are
updated.  The method returns `None` on both paths. -/
def addError (cap : Nat) (st : GState) (e : ErrorRec) : GState × PyVal :=
  if queueHasRoom cap st.queue then
    ({ st with
        queue := st.queue ++ [e],
        errorsDetected := (e :: st.errorsDetected).take 50,
        totalDetected := st.totalDetected + 1,
        errorsInQueue := st.queue.length + 1 }, PyVal.pynone)
  else
    (st, PyVal.pynone)

/-! ## Fixer strategies (`RealtimeErrorFixer`) -/

/-- `_fix_duplicates`: delete every id after the first of
`error['document_ids']`; always reports success. -/
def fixDuplicates (db : DBase) (e : ErrorRec) : DBase × Bool :=
  (setColl db e.collection
    (e.documentIds.tail.foldl deleteOne (getColl db e.collection)), true)

/-- `_fix_orphaned`: look the document up; when found, copy it (tagged with
archive time and reason) into the `_orphaned` collection and delete the
original, reporting success — when the document no longer exists, mutate
nothing and report failure (`return False`). -/
def fixOrphaned (now : String) (db : DBase) (e : ErrorRec) : DBase × Bool :=
  match (getColl db e.collection).find? (fun d => d.id == e.documentId) with
  | some d =>
      let taggedFields :=
        setField (setField d.fields "_archived_at" (BVal.vstr now))
          "_archive_reason" (BVal.vstr "orphaned_document")
      let archived : Doc := { d with fields := taggedFields }
      let an := e.collection ++ "_orphaned"
      let db1 := setColl db an (getColl db an ++ [archived])
      (setColl db1 e.collection (deleteOne (getColl db1 e.collection) d.id),
       true)
  | none => (db, false)

/-- `_fix_missing_field`: delete the incomplete document outright. -/
def fixMissingField (db : DBase) (e : ErrorRec) : DBase × Bool :=
  (setColl db e.collection (deleteOne (getColl db e.collection) e.documentId),
   true)

/-- `_fix_invalid_data`: overwrite the offending field of the target
document with the default value `'pending'`. -/
def fixInvalidData (db : DBase) (e : ErrorRec) : DBase × Bool :=
  (setColl db e.collection
    (updateOneSet (getColl db e.collection) e.documentId e.offendingField
      (BVal.vstr "pending")), true)

/-- The fixer configuration flags consulted by `_fix_error`. -/
structure Config where
  dryRun : Bool
  autoFixEnabled : Bool
  backupBeforeFix : Bool
deriving DecidableEq, Repr

/-- `_fix_error`: in dry-run mode report success without touching the
repository; with auto-fix disabled report failure; otherwise back up
(`_create_backup` only logs — no repository effect) and dispatch on
`fix_action`, an unknown action reporting failure. -/
def fixError (cfg : Config) (now : String) (db : DBase) (e : ErrorRec) :
    DBase × Bool :=
  if cfg.dryRun then (db, true)
  else if !cfg.autoFixEnabled then (db, false)
  else if e.fixAction == "remove_duplicates" then fixDuplicates db e
  else if e.fixAction == "archive_orphaned" then fixOrphaned now db e
  else if e.fixAction == "add_default_or_delete" then fixMissingField db e
  else if e.fixAction == "set_default_value" then fixInvalidData db e
  else if e.fixAction == "create_index" then (db, true)
  else (db, false)

/-! ## Detection cycle (`RealtimeErrorDetector.run_detection_cycle`) -/

/-- All anomalies of one cycle, in the order the enabled checks emit them
(every check flag is on in the shipped configuration). -/
def cycleAnomalies (cutoff : Int) (db : DBase) : List ErrorRec :=
  checkDuplicates db ++ checkOrphanedDocuments db ++ checkMissingFields db ++
    checkDataConsistency db ++ checkSlowQueries cutoff db

/-- `connect()`: on success flip health to connected/running, on failure to
disconnected/error. -/
def connectDetector (reachable : Bool) (st : GState) : GState × Bool :=
  if reachable then
    ({ st with dbConnected := true, healthStatus := "running" }, true)
  else
    ({ st with dbConnected := false, healthStatus := "error" }, false)

/-- `run_detection_cycle`: bump `checks_run` and stamp `last_check` first;
then, if there is no client yet, try to connect and bail out of the cycle
when that fails; otherwise run every check, feeding each anomaly through
`add_error`.  Result: (state, client present afterwards, cycle ran its
checks to completion). -/
def runDetectionCycle (reachable connected : Bool) (cap : Nat) (cutoff : Int)
    (now : String) (db : DBase) (st : GState) : GState × Bool × Bool :=
  let st1 := { st with checksRun := st.checksRun + 1, lastCheck := some now }
  if connected then
    ((cycleAnomalies cutoff db).foldl (fun s e => (addError cap s e).1) st1,
     true, true)
  else
    match connectDetector reachable st1 with
    | (st2, true) =>
        ((cycleAnomalies cutoff db).foldl (fun s e => (addError cap s e).1) st2,
         true, true)
    | (st2, false) => (st2, false, false)

/-! ## The fixer loop as a transition system

`RealtimeErrorFixer.run` mutates `GLOBAL_STATE.current_error` and
`GLOBAL_STATE.system_health['fixer_status']` without holding
`GLOBAL_STATE.lock`; each single Python assignment is atomic, so the loop
body decomposes into one transition per shared write.  `get_state` copies
the fields under the lock, hence a snapshot is an atomic read of the
shared fields at any point between two transitions. -/

/-- `system_health['fixer_status']`. -/
inductive FStatus where
  | idle
  | fixing
deriving DecidableEq, Repr

/-- The shared fields the invariant of the claim talks about. -/
structure Shared where
  queue : List ErrorRec
  currentError : Option ErrorRec
  fixerStatus : FStatus
deriving DecidableEq, Repr

/-- What `get_state` exposes of those fields (one atomic copy). -/
structure Snap where
  currentError : Option ErrorRec
  fixerStatus : FStatus
  errorsInQueue : Nat
deriving DecidableEq, Repr

/-- Take the dashboard snapshot of the shared fields. -/
def snapshot (sh : Shared) : Snap :=
  ⟨sh.currentError, sh.fixerStatus, sh.queue.length⟩

/-- Program points of the fixer loop body, one per atomic shared write. -/
inductive Pc where
  | top
  | popped
  | curSet
  | statusSet
  | fixDone
  | markDone
deriving DecidableEq, Repr

/-- A configuration: program point, the local variable `error`, and the
shared state. -/
structure Conf where
  pc : Pc
  localErr : Option ErrorRec
  sh : Shared
deriving DecidableEq, Repr

/-- One atomic step of the fixer loop (`RealtimeErrorFixer.run`). -/
inductive FixerStep : Conf → Conf → Prop where
  | popSome (l : Option ErrorRec) (e : ErrorRec) (rest : List ErrorRec)
      (cur : Option ErrorRec) (fs : FStatus) :
      FixerStep ⟨Pc.top, l, ⟨e :: rest, cur, fs⟩⟩
        ⟨Pc.popped, some e, ⟨rest, cur, fs⟩⟩
  | popNone (l : Option ErrorRec) (cur : Option ErrorRec) (fs : FStatus) :
      FixerStep ⟨Pc.top, l, ⟨[], cur, fs⟩⟩
        ⟨Pc.top, none, ⟨[], cur, FStatus.idle⟩⟩
  | setCur (e : ErrorRec) (sh : Shared) :
      FixerStep ⟨Pc.popped, some e, sh⟩
        ⟨Pc.curSet, some e, { sh with currentError := some e }⟩
  | setFixing (l : Option ErrorRec) (sh : Shared) :
      FixerStep ⟨Pc.curSet, l, sh⟩
        ⟨Pc.statusSet, l, { sh with fixerStatus := FStatus.fixing }⟩
  | doFix (l : Option ErrorRec) (sh : Shared) :
      FixerStep ⟨Pc.statusSet, l, sh⟩ ⟨Pc.fixDone, l, sh⟩
  | doMark (l : Option ErrorRec) (sh : Shared) :
      FixerStep ⟨Pc.fixDone, l, sh⟩ ⟨Pc.markDone, l, sh⟩
  | clearCur (l : Option ErrorRec) (sh : Shared) :
      FixerStep ⟨Pc.markDone, l, sh⟩
        ⟨Pc.top, l, { sh with currentError := none }⟩

/-- The initial configuration once the detector has queued `e`:
`current_error = None`, `fixer_status = 'idle'` (`GlobalState.__init__`). -/
def initConf (e : ErrorRec) : Conf :=
  ⟨Pc.top, none, ⟨[e], none, FStatus.idle⟩⟩

/-- Reachability along fixer steps. -/
def Reachable (c c' : Conf) : Prop := Relation.ReflTransGen FixerStep c c'

/-! ## Spec-side definitions (for refinement comparisons)

These two definitions follow the specification's words, to be compared
with the definitions above that were translated from the source. -/

/-- The required fields of a user record named by the spec. -/
def requiredUserFields : List String := ["email", "name"]

/-- Modelled from the spec: one missing-field anomaly per distinct
(record, field) pair over the required fields. -/
def missingFieldAnomaliesSpec (db : DBase) : List ErrorRec :=
  if !(collNames db).contains "users" then []
  else
    (getColl db "users").foldr
      (fun d acc =>
        ((requiredUserFields.filter (fun f => missingOn d f)).map (fun f =>
          { etype := "missing_field", severity := "high",
            collection := "users", documentId := d.id, missingField := f,
            fixAction := "add_default_or_delete" })) ++ acc)
      []

/-- Modelled from the spec: collect the valid parent-key values excluding
records whose parent-key field is empty or absent, then flag each child
record whose foreign-key field is non-empty and not in that set. -/
def orphanAnomaliesSpec (db : DBase) : List ErrorRec :=
  if !(collNames db).contains "orders" then []
  else if !(collNames db).contains "users" then []
  else
    let validKeys :=
      ((getColl db "users").filterMap (fun d => lookupField d "email")).filter
        (fun v => !(v == BVal.vstr "") && !(v == BVal.vnull))
    ((getColl db "orders").filter (fun o =>
        truthyB (pyGet o "user_email") &&
        !(validKeys.contains (pyGet o "user_email")))).map mkOrphanErr

/-! ## Helper lemmas -/

theorem setField_idem (f : List (String × BVal)) (k : String) (v : BVal) :
    setField (setField f k v) k v = setField f k v := by
  induction f with
  | nil => simp [setField]
  | cons p ps ih =>
      by_cases h : p.1 == k
      · simp [setField, h]
      · simp [setField, h, ih]

theorem updateOneSet_idem (ds : List Doc) (i : Nat) (k : String) (v : BVal) :
    updateOneSet (updateOneSet ds i k v) i k v = updateOneSet ds i k v := by
  induction ds with
  | nil => simp [updateOneSet]
  | cons d tl ih =>
      by_cases h : d.id == i
      · simp [updateOneSet, h, setField_idem]
      · simp [updateOneSet, h, ih]

theorem getColl_setColl (db : DBase) (n : String) (c : List Doc) :
    getColl (setColl db n c) n = c := by
  induction db with
  | nil => simp [setColl, getColl]
  | cons p ps ih =>
      by_cases h : p.1 == n
      · simp [setColl, getColl, h]
      · simp [setColl, getColl, h, ih]
        simpa [getColl] using ih

theorem setColl_setColl (db : DBase) (n : String) (c c2 : List Doc) :
    setColl (setColl db n c) n c2 = setColl db n c2 := by
  induction db with
  | nil => simp [setColl]
  | cons p ps ih =>
      by_cases h : p.1 == n
      · simp [setColl, h]
      · simp [setColl, h, ih]

/-- `add_error` never touches the cycle counter or the last-check stamp. -/
theorem addError_preserves_cycle_stats (cap : Nat) (st : GState)
    (e : ErrorRec) :
    ((addError cap st e).1.checksRun = st.checksRun) ∧
    ((addError cap st e).1.lastCheck = st.lastCheck) := by
  unfold addError
  by_cases h : queueHasRoom cap st.queue
  · simp [h]
  · simp [h]

theorem foldAdd_preserves_cycle_stats (cap : Nat) (l : List ErrorRec) :
    ∀ st : GState,
      ((l.foldl (fun s e => (addError cap s e).1) st).checksRun =
        st.checksRun) ∧
      ((l.foldl (fun s e => (addError cap s e).1) st).lastCheck =
        st.lastCheck) := by
  induction l with
  | nil => intro st; simp
  | cons e tl ih =>
      intro st
      have h1 := addError_preserves_cycle_stats cap st e
      have h2 := ih (addError cap st e).1
      simp only [List.foldl_cons]
      exact ⟨h2.1.trans h1.1, h2.2.trans h1.2⟩

/-! ## Claims -/

/-- Claim C8: with the dry-run flag set, `_fix_error` reports success for
every anomaly, of every kind, and the repository is byte-for-byte
unchanged — no strategy is even dispatched. -/
theorem dry_run_no_mutation (af bf : Bool) (now : String) (db : DBase)
    (e : ErrorRec) :
    fixError ⟨true, af, bf⟩ now db e = (db, true) := by
  rfl

/-- Claim C9: the `coerce_to_default` strategy (`_fix_invalid_data`) is
idempotent — a second application yields the same repository state as the
first, and both applications report success. -/
theorem coerce_to_default_idempotent (db : DBase) (e : ErrorRec) :
    fixInvalidData (fixInvalidData db e).1 e = fixInvalidData db e ∧
    (fixInvalidData db e).2 = true ∧
    (fixInvalidData (fixInvalidData db e).1 e).2 = true := by
  refine ⟨?_, rfl, rfl⟩
  simp [fixInvalidData, getColl_setColl, updateOneSet_idem, setColl_setColl]

/-- Claim C10: when the queue is full, `add_error` leaves the shared state
entirely unchanged — no counter bump, no recent-detected insert — and
returns normally (the `queue.Full` exception is swallowed). -/
theorem queue_full_rejection_atomic (cap : Nat) (st : GState) (e : ErrorRec)
    (hc : 0 < cap) (hf : cap ≤ st.queue.length) :
    addError cap st e = (st, PyVal.pynone) := by
  have hroom : queueHasRoom cap st.queue = false := by
    simp [queueHasRoom, Nat.not_lt.mpr hf]
    omega
  simp [addError, hroom]

/-- Witness for claim C10 at a concrete full queue. -/
theorem queue_full_rejection_atomic_witness :
    (0 < 1 ∧ 1 ≤ (({ queue := [{ etype := "x" }] } : GState)).queue.length) ∧
    addError 1 ({ queue := [{ etype := "x" }] } : GState) { etype := "y" } =
      (({ queue := [{ etype := "x" }] } : GState), PyVal.pynone) :=
  ⟨⟨by decide, by decide⟩,
    queue_full_rejection_atomic 1 { queue := [{ etype := "x" }] }
      { etype := "y" } (by decide) (by decide)⟩

/-- Claim C6 counterexample: `add_error` returns `None` on both the
accepting and the rejecting path, never the booleans the claim demands. -/
theorem push_returns_none_counterexample :
    (addError 1 ({ queue := [{ etype := "x" }] } : GState)
        { etype := "y" }).2 ≠ PyVal.pybool false ∧
    (addError 1 ({ } : GState) { etype := "y" }).2 ≠ PyVal.pybool true ∧
    (addError 1 ({ queue := [{ etype := "x" }] } : GState)
        { etype := "y" }).2 = PyVal.pynone := by
  refine ⟨?_, ?_, ?_⟩ <;> decide

/-- Claim C6 as amended: `add_error` never blocks and never raises, the
anomaly is accepted exactly when the queue is not full, the queue never
exceeds the configured capacity — but the method returns `None`, not a
boolean. -/
theorem push_never_blocks_capacity (cap : Nat) (st : GState) (e : ErrorRec)
    (hc : 0 < cap) (hb : st.queue.length ≤ cap) :
    ((addError cap st e).1.queue =
      if st.queue.length < cap then st.queue ++ [e] else st.queue) ∧
    (addError cap st e).1.queue.length ≤ cap ∧
    (addError cap st e).2 = PyVal.pynone := by
  have hcap : (cap == 0) = false := by
    rw [beq_eq_false_iff_ne]
    omega
  by_cases h : st.queue.length < cap
  · have hroom : queueHasRoom cap st.queue = true := by
      simp [queueHasRoom, hcap, h]
    refine ⟨?_, ?_, ?_⟩ <;> simp [addError, hroom, h]
    omega
  · have hroom : queueHasRoom cap st.queue = false := by
      simp [queueHasRoom, hcap, h]
    refine ⟨?_, ?_, ?_⟩ <;> simp [addError, hroom, h]
    exact hb

/-- Witness for claim C6's amended statement at concrete queues. -/
theorem push_never_blocks_capacity_witness :
    (0 < 2 ∧ (({ queue := [{ etype := "x" }] } : GState)).queue.length ≤ 2) ∧
    ((addError 2 ({ queue := [{ etype := "x" }] } : GState)
        { etype := "y" }).1.queue =
      if (({ queue := [{ etype := "x" }] } : GState)).queue.length < 2 then
        (({ queue := [{ etype := "x" }] } : GState)).queue ++ [{ etype := "y" }]
      else (({ queue := [{ etype := "x" }] } : GState)).queue) ∧
    (addError 2 ({ queue := [{ etype := "x" }] } : GState)
        { etype := "y" }).1.queue.length ≤ 2 ∧
    (addError 2 ({ queue := [{ etype := "x" }] } : GState)
        { etype := "y" }).2 = PyVal.pynone :=
  ⟨⟨by decide, by decide⟩,
    push_never_blocks_capacity 2 { queue := [{ etype := "x" }] }
      { etype := "y" } (by decide) (by decide)⟩

/-- Claim C4 counterexample: when the target record is gone,
`_fix_orphaned` reports failure (`return False`), not the no-op success
the claim demands. -/
theorem archive_orphan_missing_counterexample :
    fixOrphaned "t0" [("orders", [⟨1, [("user_email", BVal.vstr "c@x")]⟩])]
        { collection := "orders", documentId := 99,
          fixAction := "archive_orphaned" } =
      ([("orders", [⟨1, [("user_email", BVal.vstr "c@x")]⟩])], false) ∧
    fixOrphaned "t0" [("orders", [⟨1, [("user_email", BVal.vstr "c@x")]⟩])]
        { collection := "orders", documentId := 99,
          fixAction := "archive_orphaned" } ≠
      ([("orders", [⟨1, [("user_email", BVal.vstr "c@x")]⟩])], true) := by
  refine ⟨?_, ?_⟩ <;> decide

/-- Claim C4 as amended: when the target record no longer exists, the
`archive_orphan` strategy performs no mutation and reports failure — the
anomaly is recorded as failed, not fixed. -/
theorem archive_orphan_missing_reports_failure (now : String) (db : DBase)
    (e : ErrorRec)
    (h : (getColl db e.collection).find? (fun d => d.id == e.documentId) =
      none) :
    fixOrphaned now db e = (db, false) := by
  unfold fixOrphaned
  rw [h]

/-- Witness for claim C4's amended statement at a concrete database. -/
theorem archive_orphan_missing_reports_failure_witness :
    ((getColl [("orders", [⟨1, [("user_email", BVal.vstr "c@x")]⟩])]
        "orders").find? (fun d => d.id == 99) = none) ∧
    fixOrphaned "t0" [("orders", [⟨1, [("user_email", BVal.vstr "c@x")]⟩])]
        { collection := "orders", documentId := 99,
          fixAction := "archive_orphaned" } =
      ([("orders", [⟨1, [("user_email", BVal.vstr "c@x")]⟩])], false) :=
  ⟨by decide,
    archive_orphan_missing_reports_failure "t0"
      [("orders", [⟨1, [("user_email", BVal.vstr "c@x")]⟩])]
      { collection := "orders", documentId := 99,
        fixAction := "archive_orphaned" } (by decide)⟩

/-- Claim C7 counterexample: with no client and the repository unreachable,
the cycle bails out without running any check (`completed = false`, the
queue stays empty), yet `checks_run` was already bumped from 0 to 1 and
`last_check` stamped — the skipped cycle is counted. -/
theorem skipped_cycle_counted_counterexample :
    (runDetectionCycle false false 100 0 "t1" ([] : DBase)
        ({ } : GState)).1.checksRun = 1 ∧
    (runDetectionCycle false false 100 0 "t1" ([] : DBase)
        ({ } : GState)).1.lastCheck = some "t1" ∧
    (runDetectionCycle false false 100 0 "t1" ([] : DBase)
        ({ } : GState)).2.2 = false ∧
    (runDetectionCycle false false 100 0 "t1" ([] : DBase)
        ({ } : GState)).1.queue = [] := by
  refine ⟨?_, ?_, ?_, ?_⟩ <;> decide

/-- The state a skipped cycle leaves behind: counter bumped, `last_check`
stamped, health flipped to disconnected/error, everything else untouched. -/
def skippedCycleState (now : String) (st : GState) : GState :=
  { st with
      checksRun := st.checksRun + 1,
      lastCheck := some now,
      dbConnected := false,
      healthStatus := "error" }

/-- Claim C7 as amended: `run_detection_cycle` increments `checks_run` and
sets `last_check` at the start of every cycle attempt — including an
attempt skipped because the repository is unreachable, which runs no
check and leaves the rest of the state exactly as `connect` left it. -/
theorem cycle_counter_incremented_every_attempt (reachable connected : Bool)
    (cap : Nat) (cutoff : Int) (now : String) (db : DBase) (st : GState) :
    ((runDetectionCycle reachable connected cap cutoff now db st).1.checksRun =
      st.checksRun + 1) ∧
    ((runDetectionCycle reachable connected cap cutoff now db st).1.lastCheck =
      some now) ∧
    (runDetectionCycle false false cap cutoff now db st =
      (skippedCycleState now st, false, false)) := by
  refine ⟨?_, ?_, ?_⟩
  · unfold runDetectionCycle
    cases connected with
    | true =>
        simp [(foldAdd_preserves_cycle_stats cap (cycleAnomalies cutoff db)
          _).1]
    | false =>
        cases reachable with
        | true =>
            simp [connectDetector,
              (foldAdd_preserves_cycle_stats cap
                (cycleAnomalies cutoff db) _).1]
        | false => simp [connectDetector]
  · unfold runDetectionCycle
    cases connected with
    | true =>
        simp [(foldAdd_preserves_cycle_stats cap (cycleAnomalies cutoff db)
          _).2]
    | false =>
        cases reachable with
        | true =>
            simp [connectDetector,
              (foldAdd_preserves_cycle_stats cap
                (cycleAnomalies cutoff db) _).2]
        | false => simp [connectDetector]
  · simp [runDetectionCycle, connectDetector, skippedCycleState]

/-- Claim C2: the fixer sets `current_error` and `fixer_status` by two
separate unlocked writes, so a snapshot taken between them observes the
in-flight anomaly with `fixer_status` still `'idle'`; and after a fix
`current_error` is cleared while `fixer_status` stays `'fixing'`, so a
snapshot taken then observes `'fixing'` with nothing in flight.  Both
torn observations are reachable from the initial state. -/
theorem fixer_status_tear_reachable :
    (∃ c : Conf, Reachable (initConf { }) c ∧
      (snapshot c.sh).currentError = some { } ∧
      (snapshot c.sh).fixerStatus = FStatus.idle) ∧
    (∃ c : Conf, Reachable (initConf { }) c ∧
      (snapshot c.sh).currentError = none ∧
      (snapshot c.sh).fixerStatus = FStatus.fixing) := by
  constructor
  · refine ⟨⟨Pc.curSet, some { }, ⟨[], some { }, FStatus.idle⟩⟩, ?_, rfl, rfl⟩
    exact Relation.ReflTransGen.head
      (FixerStep.popSome none { } [] none FStatus.idle)
      (Relation.ReflTransGen.head
        (FixerStep.setCur { } ⟨[], none, FStatus.idle⟩)
        Relation.ReflTransGen.refl)
  · refine ⟨⟨Pc.top, some { }, ⟨[], none, FStatus.fixing⟩⟩, ?_, rfl, rfl⟩
    exact Relation.ReflTransGen.head
      (FixerStep.popSome none { } [] none FStatus.idle)
      (Relation.ReflTransGen.head
        (FixerStep.setCur { } ⟨[], none, FStatus.idle⟩)
        (Relation.ReflTransGen.head
          (FixerStep.setFixing (some { }) ⟨[], some { }, FStatus.idle⟩)
          (Relation.ReflTransGen.head
            (FixerStep.doFix (some { }) ⟨[], some { }, FStatus.fixing⟩)
            (Relation.ReflTransGen.head
              (FixerStep.doMark (some { }) ⟨[], some { }, FStatus.fixing⟩)
              (Relation.ReflTransGen.head
                (FixerStep.clearCur (some { })
                  ⟨[], some { }, FStatus.fixing⟩)
                Relation.ReflTransGen.refl)))))

/-- Claim C1 counterexample: a user document lacking both `email` and
`name` yields exactly 1 anomaly from `_check_missing_fields` (the check
only ever looks at `email`), while the claim demands one anomaly per
missing (record, field) pair, i.e. 2. -/
theorem missing_field_counterexample :
    (checkMissingFields [("users", [⟨1, []⟩])]).length = 1 ∧
    (missingFieldAnomaliesSpec [("users", [⟨1, []⟩])]).length = 2 ∧
    checkMissingFields [("users", [⟨1, []⟩])] ≠
      missingFieldAnomaliesSpec [("users", [⟨1, []⟩])] := by
  refine ⟨?_, ?_, ?_⟩ <;> decide

/-- Claim C1 as amended: the missing-field check only examines `email`;
one detection cycle emits exactly one anomaly per user record whose
`email` is missing, null or empty (capped at the first 10 such records),
each tagged with `missing_field = 'email'` — a record missing both
`email` and `name` therefore yields exactly 1 anomaly, not 2. -/
theorem missing_field_one_per_record (db : DBase)
    (hu : (collNames db).contains "users" = true)
    (hn : ((getColl db "users").map Doc.id).Nodup) :
    (checkMissingFields db).length =
      min ((getColl db "users").countP (fun d => missingOn d "email")) 10 ∧
    (∀ a ∈ checkMissingFields db,
      a.missingField = "email" ∧ a.etype = "missing_field") ∧
    ((checkMissingFields db).map ErrorRec.documentId).Nodup := by
  have hdef : checkMissingFields db =
      (((getColl db "users").filter (fun d => missingOn d "email")).take
        10).map mkMissingErr := by
    unfold checkMissingFields
    rw [hu]
    rfl
  refine ⟨?_, ?_, ?_⟩
  · rw [hdef, List.length_map, List.length_take,
      List.countP_eq_length_filter, Nat.min_comm]
  · intro a ha
    rw [hdef] at ha
    obtain ⟨d, _, rfl⟩ := List.mem_map.mp ha
    exact ⟨rfl, rfl⟩
  · rw [hdef, List.map_map]
    have hsub : List.Sublist
        (((getColl db "users").filter (fun d => missingOn d "email")).take 10)
        (getColl db "users") :=
      (List.take_sublist _ _).trans (List.filter_sublist _)
    have hcomp : ErrorRec.documentId ∘ mkMissingErr = Doc.id := rfl
    rw [hcomp]
    exact List.Nodup.sublist (hsub.map Doc.id) hn

/-- Witness for claim C1's amended statement: two users, one missing both
required fields — exactly one anomaly results. -/
theorem missing_field_one_per_record_witness :
    ((collNames [("users",
        [⟨1, []⟩, ⟨2, [("email", BVal.vstr "a@x")]⟩])]).contains "users" =
          true ∧
      ((getColl [("users", [⟨1, []⟩, ⟨2, [("email", BVal.vstr "a@x")]⟩])]
          "users").map Doc.id).Nodup) ∧
    ((checkMissingFields
        [("users", [⟨1, []⟩, ⟨2, [("email", BVal.vstr "a@x")]⟩])]).length =
      min ((getColl [("users", [⟨1, []⟩, ⟨2, [("email", BVal.vstr "a@x")]⟩])]
          "users").countP (fun d => missingOn d "email")) 10 ∧
    (∀ a ∈ checkMissingFields
        [("users", [⟨1, []⟩, ⟨2, [("email", BVal.vstr "a@x")]⟩])],
      a.missingField = "email" ∧ a.etype = "missing_field") ∧
    ((checkMissingFields
        [("users", [⟨1, []⟩, ⟨2, [("email", BVal.vstr "a@x")]⟩])]).map
      ErrorRec.documentId).Nodup) :=
  ⟨⟨by decide, by decide⟩,
    missing_field_one_per_record
      [("users", [⟨1, []⟩, ⟨2, [("email", BVal.vstr "a@x")]⟩])]
      (by decide) (by decide)⟩

/-- When every user document carries the `email` field, the generator
expression completes with the listed values. -/
theorem collectEmails_ok (l : List Doc)
    (h : ∀ d ∈ l, (lookupField d "email").isSome = true) :
    collectEmails l = Except.ok (l.map (fun d => pyGet d "email")) := by
  induction l with
  | nil => rfl
  | cons d ds ih =>
      have hd := h d (List.mem_cons_self d ds)
      obtain ⟨v, hv⟩ := Option.isSome_iff_exists.mp hd
      have hrest := ih (fun x hx => h x (List.mem_cons_of_mem d hx))
      simp [collectEmails, hv, hrest, pyGet]

/-- With the field present everywhere, `filterMap` of the lookup is the
plain value list. -/
theorem filterMap_lookup_eq (l : List Doc)
    (h : ∀ d ∈ l, (lookupField d "email").isSome = true) :
    l.filterMap (fun d => lookupField d "email") =
      l.map (fun d => pyGet d "email") := by
  induction l with
  | nil => rfl
  | cons d ds ih =>
      have hd := h d (List.mem_cons_self d ds)
      obtain ⟨v, hv⟩ := Option.isSome_iff_exists.mp hd
      have hrest := ih (fun x hx => h x (List.mem_cons_of_mem d hx))
      simp [List.filterMap_cons, hv, hrest, pyGet]

/-- A truthy value is neither the empty string nor null. -/
theorem truthy_not_excluded (v : BVal) (ht : truthyB v = true) :
    (!(v == BVal.vstr "") && !(v == BVal.vnull)) = true := by
  cases v with
  | vstr s =>
      have hs : ¬ s = "" := by simpa [truthyB] using ht
      simp [beq_iff_eq, hs]
  | vint n => simp
  | vnull => simp [truthyB] at ht

/-- Filtering by a predicate the value satisfies does not change
membership. -/
theorem contains_filter_eq (l : List BVal) (v : BVal) (p : BVal → Bool)
    (hp : p v = true) : (l.filter p).contains v = l.contains v := by
  by_cases hm : v ∈ l
  · have h2 : v ∈ l.filter p := List.mem_filter.mpr ⟨hm, hp⟩
    simp [List.contains, List.elem_iff, hm, h2]
  · have h2 : v ∉ l.filter p := fun hc => hm (List.mem_filter.mp hc).1
    simp [List.contains, List.elem_iff, hm, h2]

/-- Claim C5 counterexample: one user lacks the `email` field entirely, so
`doc['email']` raises `KeyError`, the whole orphan check aborts and emits
nothing — although an order referencing a non-existent user is present,
which the claim says must be flagged. -/
theorem orphan_check_aborts_counterexample :
    checkOrphanedDocuments
        [("users", [⟨1, []⟩]),
         ("orders", [⟨2, [("user_email", BVal.vstr "c@x.com")]⟩])] = [] ∧
    orphanAnomaliesSpec
        [("users", [⟨1, []⟩]),
         ("orders", [⟨2, [("user_email", BVal.vstr "c@x.com")]⟩])] ≠ [] ∧
    checkOrphanedDocuments
        [("users", [⟨1, []⟩]),
         ("orders", [⟨2, [("user_email", BVal.vstr "c@x.com")]⟩])] ≠
      orphanAnomaliesSpec
        [("users", [⟨1, []⟩]),
         ("orders", [⟨2, [("user_email", BVal.vstr "c@x.com")]⟩])] := by
  refine ⟨?_, ?_, ?_⟩ <;> decide

/-- Claim C5 as amended: only when every user record carries the
parent-key field does the orphan check behave as specified — it then
emits exactly one anomaly per order whose `user_email` is non-empty and
matches no user email (the inclusion of empty or null parent values in
the collected set is unobservable, since a truthy foreign key never
equals them); when some user record lacks the field, the check aborts
and emits no anomalies. -/
theorem orphan_check_agrees_when_fields_present (db : DBase)
    (h : ∀ d ∈ getColl db "users", (lookupField d "email").isSome = true) :
    checkOrphanedDocuments db = orphanAnomaliesSpec db := by
  unfold checkOrphanedDocuments orphanAnomaliesSpec
  cases ho : (collNames db).contains "orders" with
  | false => simp [ho]
  | true =>
      cases hu : (collNames db).contains "users" with
      | false => simp [ho, hu]
      | true =>
          rw [collectEmails_ok _ h, filterMap_lookup_eq _ h]
          simp only [ho, hu, Bool.not_true, Bool.false_eq_true, if_false]
          congr 1
          apply List.filter_congr
          intro o _
          cases ht : truthyB (pyGet o "user_email") with
          | false => simp [ht]
          | true =>
              have hc := contains_filter_eq
                ((getColl db "users").map (fun d => pyGet d "email"))
                (pyGet o "user_email")
                (fun v => !(v == BVal.vstr "") && !(v == BVal.vnull))
                (truthy_not_excluded _ ht)
              rw [hc]

/-- Witness for claim C5's amended statement at a concrete database with
one genuine orphan. -/
theorem orphan_check_agrees_witness :
    (∀ d ∈ getColl
        [("users", [⟨1, [("email", BVal.vstr "a@x.com")]⟩]),
         ("orders", [⟨2, [("user_email", BVal.vstr "c@x.com")]⟩,
                     ⟨3, [("user_email", BVal.vstr "a@x.com")]⟩])] "users",
      (lookupField d "email").isSome = true) ∧
    checkOrphanedDocuments
        [("users", [⟨1, [("email", BVal.vstr "a@x.com")]⟩]),
         ("orders", [⟨2, [("user_email", BVal.vstr "c@x.com")]⟩,
                     ⟨3, [("user_email", BVal.vstr "a@x.com")]⟩])] =
      orphanAnomaliesSpec
        [("users", [⟨1, [("email", BVal.vstr "a@x.com")]⟩]),
         ("orders", [⟨2, [("user_email", BVal.vstr "c@x.com")]⟩,
                     ⟨3, [("user_email", BVal.vstr "a@x.com")]⟩])] :=
  ⟨by decide,
    orphan_check_agrees_when_fields_present
      [("users", [⟨1, [("email", BVal.vstr "a@x.com")]⟩]),
       ("orders", [⟨2, [("user_email", BVal.vstr "c@x.com")]⟩,
                   ⟨3, [("user_email", BVal.vstr "a@x.com")]⟩])]
      (by decide)⟩

/-- De Morgan on list membership of a cons cell. -/
theorem not_contains_cons (x i : Nat) (is : List Nat) :
    (!((i :: is).contains x)) = (!(x == i) && !(is.contains x)) := by
  rw [List.contains_cons, Bool.not_or]

/-- On a collection with distinct ids, `delete_one` by id is a filter. -/
theorem deleteOne_eq_filter (docs : List Doc) (i : Nat)
    (hn : (docs.map Doc.id).Nodup) :
    deleteOne docs i = docs.filter (fun d => !(d.id == i)) := by
  induction docs with
  | nil => rfl
  | cons d ds ih =>
      simp only [List.map_cons, List.nodup_cons] at hn
      by_cases hd : (d.id == i) = true
      · have hi : d.id = i := by simpa using hd
        have hrest : ds.filter (fun x => !(x.id == i)) = ds := by
          apply List.filter_eq_self.mpr
          intro x hx
          have hne : ¬ x.id = i := by
            intro hxi
            have hmem : x.id ∈ ds.map Doc.id := List.mem_map_of_mem Doc.id hx
            rw [hxi, ← hi] at hmem
            exact hn.1 hmem
          simp [hne]
        simp [deleteOne, hd, hrest]
      · simp only [Bool.not_eq_true] at hd
        simp [deleteOne, hd, ih hn.2]

/-- Folding `delete_one` over a list of ids filters all of them out at
once (distinct-id collections). -/
theorem foldl_deleteOne_eq_filter (ids : List Nat) :
    ∀ docs : List Doc, (docs.map Doc.id).Nodup →
      ids.foldl deleteOne docs =
        docs.filter (fun d => !(ids.contains d.id)) := by
  induction ids with
  | nil => intro docs _; simp
  | cons i is ih =>
      intro docs hn
      have h1 : deleteOne docs i = docs.filter (fun d => !(d.id == i)) :=
        deleteOne_eq_filter docs i hn
      have hn2 : ((docs.filter (fun d => !(d.id == i))).map Doc.id).Nodup :=
        List.Nodup.sublist ((List.filter_sublist docs).map Doc.id) hn
      have h2 := ih (docs.filter (fun d => !(d.id == i))) hn2
      calc (i :: is).foldl deleteOne docs
          = is.foldl deleteOne (deleteOne docs i) := rfl
        _ = (docs.filter (fun d => !(d.id == i))).filter
              (fun d => !(is.contains d.id)) := by rw [h1, h2]
        _ = docs.filter (fun d => !((i :: is).contains d.id)) := by
            rw [List.filter_filter]
            apply List.filter_congr
            intro d _
            rw [not_contains_cons, Bool.and_comm]

/-- With distinct ids, filtering for one present id yields that single
id. -/
theorem filter_id_single (docs : List Doc) (h : Nat)
    (hn : (docs.map Doc.id).Nodup) (hm : h ∈ docs.map Doc.id) :
    (docs.filter (fun d => d.id == h)).map Doc.id = [h] := by
  induction docs with
  | nil => simp at hm
  | cons d ds ih =>
      simp only [List.map_cons, List.nodup_cons] at hn
      by_cases hd : (d.id == h) = true
      · have hi : d.id = h := by simpa using hd
        have hrest : ds.filter (fun x => x.id == h) = [] := by
          rw [List.filter_eq_nil_iff]
          intro x hx
          intro hxh
          have hxe : x.id = h := by simpa using hxh
          have hmem : x.id ∈ ds.map Doc.id := List.mem_map_of_mem Doc.id hx
          rw [hxe, ← hi] at hmem
          exact hn.1 hmem
        simp [hd, hrest, hi]
      · have hmem : h ∈ ds.map Doc.id := by
          rcases List.mem_cons.mp hm with hh | hh
          · exact absurd (by simp [hh]) hd
          · exact hh
        simp only [Bool.not_eq_true] at hd
        simp [List.filter_cons, hd, ih hn.2 hmem]

/-- Deleting one present id from a distinct-id collection shrinks it by
exactly one. -/
theorem filter_ne_length (docs : List Doc) (i : Nat)
    (hn : (docs.map Doc.id).Nodup) (hm : i ∈ docs.map Doc.id) :
    (docs.filter (fun d => !(d.id == i))).length = docs.length - 1 := by
  induction docs with
  | nil => simp at hm
  | cons d ds ih =>
      simp only [List.map_cons, List.nodup_cons] at hn
      by_cases hd : (d.id == i) = true
      · have hi : d.id = i := by simpa using hd
        have hrest : ds.filter (fun x => !(x.id == i)) = ds := by
          apply List.filter_eq_self.mpr
          intro x hx
          have hne : ¬ x.id = i := by
            intro hxi
            have hmem : x.id ∈ ds.map Doc.id := List.mem_map_of_mem Doc.id hx
            rw [hxi, ← hi] at hmem
            exact hn.1 hmem
          simp [hne]
        simp [List.filter_cons, hd, hrest]
      · have hmem : i ∈ ds.map Doc.id := by
          rcases List.mem_cons.mp hm with hh | hh
          · exact absurd (by simp [hh.symm]) hd
          · exact hh
        have hpos : 0 < ds.length := by
          have : ds.map Doc.id ≠ [] := List.ne_nil_of_mem hmem
          have h2 : ds ≠ [] := by
            intro hnil
            rw [hnil] at this
            exact this rfl
          exact List.length_pos.mpr h2
        have hih := ih hn.2 hmem
        simp only [Bool.not_eq_true] at hd
        simp only [List.filter_cons, hd, Bool.not_false, if_pos]
        simp only [List.length_cons, hih]
        omega

/-- Removing a distinct set of present ids shrinks a distinct-id
collection by exactly that many records. -/
theorem filter_not_contains_length (ids : List Nat) :
    ∀ docs : List Doc, (docs.map Doc.id).Nodup → ids.Nodup →
      (∀ i ∈ ids, i ∈ docs.map Doc.id) →
      (docs.filter (fun d => !(ids.contains d.id))).length =
        docs.length - ids.length := by
  induction ids with
  | nil => intro docs _ _ _; simp
  | cons i is ih =>
      intro docs hn hids hsub
      simp only [List.nodup_cons] at hids
      have hsplit : docs.filter (fun d => !((i :: is).contains d.id)) =
          (docs.filter (fun d => !(d.id == i))).filter
            (fun d => !(is.contains d.id)) := by
        rw [List.filter_filter]
        apply List.filter_congr
        intro d _
        rw [not_contains_cons, Bool.and_comm]
      have hn2 : ((docs.filter (fun d => !(d.id == i))).map Doc.id).Nodup :=
        List.Nodup.sublist ((List.filter_sublist docs).map Doc.id) hn
      have hsub2 : ∀ j ∈ is,
          j ∈ (docs.filter (fun d => !(d.id == i))).map Doc.id := by
        intro j hj
        have hjd : j ∈ docs.map Doc.id := hsub j (List.mem_cons_of_mem i hj)
        obtain ⟨d, hd, hdj⟩ := List.mem_map.mp hjd
        have hji : ¬ j = i := fun hji => hids.1 (hji ▸ hj)
        refine List.mem_map.mpr ⟨d, List.mem_filter.mpr ⟨hd, ?_⟩, hdj⟩
        simp [hdj, hji]
      have hlen1 : (docs.filter (fun d => !(d.id == i))).length =
          docs.length - 1 :=
        filter_ne_length docs i hn (hsub i (List.mem_cons_self i is))
      rw [hsplit, ih _ hn2 hids.2 hsub2, hlen1]
      simp only [List.length_cons]
      omega

/-- Claim C3: `_fix_duplicates` keeps the first identifier of
`document_ids` (the first-discovered record) and deletes exactly the
remaining N−1; among the colliding records exactly the first survives,
the collection shrinks by exactly N−1, and the strategy reports
success. -/
theorem remove_duplicates_keeps_first (db : DBase) (e : ErrorRec)
    (hn : ((getColl db e.collection).map Doc.id).Nodup)
    (hd : e.documentIds.Nodup)
    (hs : ∀ i ∈ e.documentIds, i ∈ (getColl db e.collection).map Doc.id)
    (hne : e.documentIds ≠ []) :
    (fixDuplicates db e).2 = true ∧
    getColl (fixDuplicates db e).1 e.collection =
      (getColl db e.collection).filter
        (fun d => !(e.documentIds.tail.contains d.id)) ∧
    ((getColl (fixDuplicates db e).1 e.collection).filter
        (fun d => e.documentIds.contains d.id)).map Doc.id =
      [e.documentIds.headD 0] ∧
    (getColl (fixDuplicates db e).1 e.collection).length =
      (getColl db e.collection).length - (e.documentIds.length - 1) := by
  obtain ⟨h0, t, hht⟩ : ∃ h0 t, e.documentIds = h0 :: t := by
    cases hx : e.documentIds with
    | nil => exact absurd hx hne
    | cons a b => exact ⟨a, b, rfl⟩
  have hafter : getColl (fixDuplicates db e).1 e.collection =
      (getColl db e.collection).filter
        (fun d => !(e.documentIds.tail.contains d.id)) := by
    unfold fixDuplicates
    rw [getColl_setColl]
    exact foldl_deleteOne_eq_filter _ _ hn
  refine ⟨rfl, hafter, ?_, ?_⟩
  · rw [hafter, hht]
    simp only [List.tail_cons, List.headD_cons]
    rw [List.filter_filter]
    have ht0 : t.contains h0 = false := by
      rw [hht] at hd
      simp only [List.nodup_cons] at hd
      simp [List.contains]
      exact hd.1
    have hstep : (getColl db e.collection).filter
        (fun a => ((h0 :: t).contains a.id) && !(t.contains a.id)) =
        (getColl db e.collection).filter (fun d => d.id == h0) := by
      apply List.filter_congr
      intro d _
      rw [List.contains_cons]
      cases hc : t.contains d.id with
      | false => simp [hc]
      | true =>
          have hne2 : (d.id == h0) = false := by
            refine beq_eq_false_iff_ne.mpr ?_
            intro he
            rw [he, ht0] at hc
            cases hc
          simp [hc, hne2]
    rw [hstep]
    refine filter_id_single _ h0 hn (hs h0 ?_)
    rw [hht]
    exact List.mem_cons_self h0 t
  · rw [hafter, hht]
    simp only [List.tail_cons]
    have htn : t.Nodup := by
      rw [hht] at hd
      exact (List.nodup_cons.mp hd).2
    have htsub : ∀ j ∈ t, j ∈ (getColl db e.collection).map Doc.id :=
      fun j hj => hs j (by rw [hht]; exact List.mem_cons_of_mem h0 hj)
    rw [filter_not_contains_length t _ hn htn htsub]
    simp

/-- Witness for claim C3: three users, two sharing an email; the fix
deletes the second duplicate and keeps the first-discovered record. -/
theorem remove_duplicates_keeps_first_witness :
    (((getColl
        [("users", [⟨1, [("email", BVal.vstr "a@x")]⟩,
                    ⟨2, [("email", BVal.vstr "a@x")]⟩,
                    ⟨3, [("email", BVal.vstr "b@x")]⟩])]
        (({ collection := "users", documentIds := [1, 2],
            fixAction := "remove_duplicates" } : ErrorRec)).collection).map
        Doc.id).Nodup ∧
      (([1, 2] : List Nat)).Nodup ∧
      (([1, 2] : List Nat)) ≠ []) ∧
    ((fixDuplicates
        [("users", [⟨1, [("email", BVal.vstr "a@x")]⟩,
                    ⟨2, [("email", BVal.vstr "a@x")]⟩,
                    ⟨3, [("email", BVal.vstr "b@x")]⟩])]
        { collection := "users", documentIds := [1, 2],
          fixAction := "remove_duplicates" }).2 = true ∧
      getColl (fixDuplicates
        [("users", [⟨1, [("email", BVal.vstr "a@x")]⟩,
                    ⟨2, [("email", BVal.vstr "a@x")]⟩,
                    ⟨3, [("email", BVal.vstr "b@x")]⟩])]
        { collection := "users", documentIds := [1, 2],
          fixAction := "remove_duplicates" }).1 "users" =
        [⟨1, [("email", BVal.vstr "a@x")]⟩,
         ⟨3, [("email", BVal.vstr "b@x")]⟩]) :=
  ⟨⟨by decide, by decide, by decide⟩, by
    have h := remove_duplicates_keeps_first
      [("users", [⟨1, [("email", BVal.vstr "a@x")]⟩,
                  ⟨2, [("email", BVal.vstr "a@x")]⟩,
                  ⟨3, [("email", BVal.vstr "b@x")]⟩])]
      { collection := "users", documentIds := [1, 2],
        fixAction := "remove_duplicates" }
      (by decide) (by decide) (by decide) (by decide)
    exact ⟨h.1, by decide⟩⟩

end SelfHeal
